import Mathlib

/-!
Verification of the sysly snapshot-to-view rendering pipeline.

Shallow embedding of the pure rendering logic of the `sysly` terminal
system monitor (files `src/main.rs`, `src/ui.rs`, `src/helpers.rs`,
`src/process.rs`) together with proofs of the specification claims.

Modelling conventions:
* Rust `u64`/`usize` values are modelled as `ℕ`.  Unchecked `usize`
  subtraction (which panics on underflow in debug profile) is modelled
  with `Option`, `none` standing for the panic; `saturating_sub` is
  ordinary truncated `ℕ` subtraction.
* `f32`/`f64` quantities are modelled as `ℚ`.  Every float comparison
  performed by the code compares values that are exactly representable
  (integer thresholds, dyadic divisions of values below 2^53), so the
  rational model agrees with the IEEE computation on the properties
  proved here.  `f64::round` (round half away from zero) agrees with
  Mathlib's `round` on the non-negative values that occur.  Rust's
  fixed-precision float printing rounds ties to even, modelled by `rte`.
* `HashMap` side-channel maps are modelled as association lists with
  `List.lookup`.
* `slice::sort_by` is a stable sort; it is modelled by `List.mergeSort`
  with the boolean translation of the source's comparator.
-/

/-- The subset of `ratatui::style::Color` constructors used by the code. -/
inductive Color where
  | red
  | yellow
  | green
  | white
  | cyan
  | gray
  | black
  | blue
  | rgb (r g b : ℕ)
deriving DecidableEq, Repr

/-! Constants (`src/ui.rs` lines 18-35) -/

def CPU_COLUMNS : ℕ := 4

def MIN_BAR_LENGTH : ℕ := 4

def MIN_MEMORY_BAR_LENGTH : ℕ := 10

def LABEL_WIDTH : ℕ := 5

def CPU_HIGH_THRESHOLD : ℚ := 80

def CPU_MEDIUM_THRESHOLD : ℚ := 50

def MEMORY_HIGH_THRESHOLD : ℚ := 8 / 10

def MEMORY_MEDIUM_THRESHOLD : ℚ := 5 / 10

def PROCESS_HIGH_THRESHOLD : ℚ := 50

def PROCESS_MEDIUM_THRESHOLD : ℚ := 20

/-! Progress bars and severity colors (`src/ui.rs` lines 338-363) -/

/-- Embedding of `create_progress_bar` (`src/ui.rs` 338-342): character at position `i`
of the `total`-character bar is a pipe when `i < used`, else a space. -/
def create_progress_bar (used total : ℕ) : String :=
  String.mk ((List.range total).map (fun i => if i < used then '|' else ' '))

/-- Embedding of `get_cpu_color` (`src/ui.rs` 344-350): three-tier CPU severity rule. -/
def get_cpu_color (usage : ℚ) : Color :=
  if CPU_HIGH_THRESHOLD < usage then Color.red
  else if CPU_MEDIUM_THRESHOLD < usage then Color.yellow
  else Color.green

/-- Embedding of `get_memory_color` (`src/ui.rs` 352-363): ratio-based severity with an
early return guarding the zero-total case. -/
def get_memory_color (used total : ℕ) : Color :=
  if total = 0 then Color.green
  else
    let ratio : ℚ := (used : ℚ) / (total : ℚ)
    if MEMORY_HIGH_THRESHOLD < ratio then Color.red
    else if MEMORY_MEDIUM_THRESHOLD < ratio then Color.yellow
    else Color.green

/-- Embedding of `get_usage_color` (`src/ui.rs` 528-533): two-tier rule shared by the
CPU% and MEM% table cells (only the foreground color is modelled). -/
def get_usage_color (usage : ℚ) : Color :=
  if PROCESS_HIGH_THRESHOLD < usage then Color.red
  else if PROCESS_MEDIUM_THRESHOLD < usage then Color.yellow
  else Color.white

/-! Number formatting (`src/helpers.rs` lines 42-103) -/

/-- Round a rational to the nearest integer, ties to even: the rounding
Rust's fixed-precision float formatting applies to the digit being cut. -/
def rte (x : ℚ) : ℤ :=
  if x - Int.floor x = 1 / 2 then
    (if 2 ∣ Int.floor x then Int.floor x else Int.floor x + 1)
  else round x

/-- Rust `format!` with precision 1 applied to a non-negative value:
integer part, a point, and exactly one fractional digit. -/
def fmt1 (x : ℚ) : String :=
  let m := (rte (10 * x)).toNat
  toString (m / 10) ++ "." ++ toString (m % 10)

def KB : ℕ := 1024

def MB : ℕ := KB * 1024

def GB : ℕ := MB * 1024

def TB : ℕ := GB * 1024

/-- Embedding of `format_bytes` (`src/helpers.rs` 42-61).  The source compares `f64`
values; since the thresholds are powers of two below 2^53 and `u64 → f64`
conversion is monotone and exact below 2^53, the branch taken is the one
selected by the exact integer comparison used here. -/
def format_bytes (bytes : ℕ) : String :=
  if TB ≤ bytes then fmt1 ((bytes : ℚ) / (TB : ℚ)) ++ "TB"
  else if GB ≤ bytes then fmt1 ((bytes : ℚ) / (GB : ℚ)) ++ "GB"
  else if MB ≤ bytes then fmt1 ((bytes : ℚ) / (MB : ℚ)) ++ "MB"
  else if KB ≤ bytes then fmt1 ((bytes : ℚ) / (KB : ℚ)) ++ "KB"
  else toString bytes ++ "KB"

/-- Zero-pad a number to two digits, Rust `format!` with `02` width. -/
def pad2 (n : ℕ) : String :=
  if n < 10 then "0" ++ toString n else toString n

/-- Embedding of `format_runtime` (`src/helpers.rs` 94-103). -/
def format_runtime (runtimeSeconds : ℕ) : String :=
  let hours := runtimeSeconds / 3600
  let minutes := runtimeSeconds % 3600 / 60
  let seconds := runtimeSeconds % 60
  pad2 hours ++ ":" ++ pad2 minutes ++ "." ++ pad2 seconds

/-! CPU panel layout (`src/ui.rs` lines 151-207) -/

/-- Row count of the CPU grid (`src/ui.rs` 157): `ceil(cpu_count / 4)`. -/
def cpu_rows (cpuCount : ℕ) : ℕ :=
  (cpuCount + CPU_COLUMNS - 1) / CPU_COLUMNS

/-- Bar-width computation of `draw_cpu_bars` (`src/ui.rs` 158-165).
`area.width as usize - total_padding` is an unchecked `usize`
subtraction: `none` models the debug-profile panic when it underflows.
The subsequent `saturating_sub` and `max` are total. -/
def bar_length_checked (width : ℕ) : Option ℕ :=
  let total_padding := (CPU_COLUMNS - 1) * 3
  let label_length := 4
  let percent_length := 6
  let bracket_length := 2
  if width < total_padding then none
  else
    some ((((width - total_padding) / CPU_COLUMNS)
      - (label_length + percent_length + bracket_length)).max MIN_BAR_LENGTH)

/-- The same computation under release-profile semantics, where the
`usize` subtraction wraps modulo `2^64` instead of panicking. -/
def bar_length_release (width : ℕ) : ℕ :=
  let total_padding := (CPU_COLUMNS - 1) * 3
  ((((width + 2 ^ 64 - total_padding) % 2 ^ 64) / CPU_COLUMNS) - 12).max
    MIN_BAR_LENGTH

/-- The grid of CPU cells built by the two nested loops of
`draw_cpu_bars` (`src/ui.rs` 169-203): entry `(row, col)` holds
`some cpu_index` for `cpu_index = row + col * cpu_rows` when that index
is a real core, and `none` for the blank overhang cells. -/
def cpu_grid (cpuCount : ℕ) : List (List (Option ℕ)) :=
  (List.range (cpu_rows cpuCount)).map (fun row =>
    (List.range CPU_COLUMNS).map (fun col =>
      let cpuIndex := row + col * cpu_rows cpuCount
      if cpuIndex < cpuCount then some cpuIndex else none))

/-! Memory bars (`src/ui.rs` lines 365-405) -/

/-- The `"used/total"` overlay text of `create_memory_bar`. -/
def mem_label_text (used total : ℕ) : String :=
  format_bytes used ++ "/" ++ format_bytes total

/-- Fill count of `create_memory_bar` (`src/ui.rs` 373-377): guarded
division, `round`, and an `as usize` cast of a non-negative value. -/
def mem_used_bars (used total barLength : ℕ) : ℕ :=
  if 0 < total then
    (round (((used : ℚ) / (total : ℚ)) * (barLength : ℚ))).toNat
  else 0

/-- Start position of the overlay (`src/ui.rs` 382-386). -/
def mem_label_start (used total barLength : ℕ) : ℕ :=
  if (mem_label_text used total).length < barLength then
    barLength - (mem_label_text used total).length
  else 0

/-- The character-replacement loop of `create_memory_bar`
(`src/ui.rs` 388-392): write each overlay character into the bar when
its position fits (all characters involved are one byte wide, so byte
indices coincide with character indices). -/
def overlay_label (bar : List Char) (start : ℕ) (label : List Char) :
    List Char :=
  label.enum.foldl
    (fun acc p =>
      if start + p.fst < acc.length then acc.set (start + p.fst) p.snd
      else acc)
    bar

/-- Left-justified padding, Rust `format!` with a `<width$` field. -/
def pad_right (s : String) (width : ℕ) : String :=
  s ++ String.mk (List.replicate (width - s.length) ' ')

/-- The data of the `Line` built by `create_memory_bar`. -/
structure MemoryBarLine where
  label : String
  bar : String
  color : Color
deriving DecidableEq, Repr

/-- Embedding of `create_memory_bar` (`src/ui.rs` 365-405). -/
def create_memory_bar (label : String) (used total barLength labelWidth : ℕ) :
    MemoryBarLine :=
  { label := pad_right label labelWidth
    bar := String.mk
      (overlay_label (create_progress_bar (mem_used_bars used total barLength)
          barLength).data
        (mem_label_start used total barLength)
        (mem_label_text used total).data)
    color := get_memory_color used total }

/-! Process side-channel reconciliation (`src/process.rs`) -/

/-- Mirror of `ProcessPriority` (`src/process.rs` 5-9). -/
structure ProcessPriority where
  priority : String
  nice : String
deriving DecidableEq, Repr

/-- Mirror of `ProcessMemory` (`src/process.rs` 12-16), values in KB. -/
structure ProcessMemory where
  virtual_memory : ℕ
  resident_memory : ℕ
deriving DecidableEq, Repr

/-- Embedding of `get_process_priority` (`src/process.rs` 99-110). -/
def get_process_priority (pid : ℕ)
    (priorityMap : List (ℕ × ProcessPriority)) : ProcessPriority :=
  match List.lookup pid priorityMap with
  | some p => p
  | none => { priority := "?", nice := "?" }

/-- Embedding of `get_process_memory` (`src/process.rs` 123-136): side-channel lookup
with fallback to the primary sample's values. -/
def get_process_memory (pid : ℕ) (memoryMap : List (ℕ × ProcessMemory))
    (fallbackVirt fallbackRes : ℕ) : ProcessMemory :=
  match List.lookup pid memoryMap with
  | some m => m
  | none =>
    { virtual_memory := fallbackVirt, resident_memory := fallbackRes }

/-! Process table (`src/ui.rs` lines 293-334 and 439-533) -/

/-- The fields of one `sysinfo::Process` consumed by the table code
(the primary snapshot sample; memory quantities in bytes). -/
structure ProcessSample where
  pid : ℕ
  user_id : Option ℕ
  cmd : List String
  status : String
  cpu_usage : ℚ
  memory : ℕ
  virtual_memory : ℕ
  run_time : ℕ
deriving DecidableEq, Repr

/-- The descending-by-CPU sort of `draw_process_table`
(`src/ui.rs` 298-303): Rust's stable `sort_by` with comparator
`b.cpu_usage().partial_cmp(&a.cpu_usage()).unwrap_or(Equal)`, i.e. `a`
may precede `b` exactly when `b.cpu_usage ≤ a.cpu_usage`. -/
def sort_processes (ps : List ProcessSample) : List ProcessSample :=
  ps.mergeSort (fun a b => decide (b.cpu_usage ≤ a.cpu_usage))

/-- Embedding of `get_process_status` (`src/ui.rs` 510-517). -/
def get_process_status (status : String) : String :=
  if status = "Running" then "R"
  else if status = "Sleeping" then "S"
  else if status = "Zombie" then "Z"
  else String.mk [status.data.headD '?']

/-- The cell contents and cell colors of one row built by
`create_process_row` (`src/ui.rs` 439-508). -/
structure ProcessRow where
  pidCell : String
  userCell : String
  priCell : String
  niCell : String
  virtCell : String
  resCell : String
  statusCell : String
  cpuCell : String × Color
  memCell : String × Color
  timeCell : String
  commandCell : String
  background : Color
  highlighted : Bool
deriving DecidableEq, Repr

/-- Embedding of `create_process_row` (`src/ui.rs` 439-508).  `totalMemory` is the
`f64` total passed by `draw_process_table`; the `as f32` cast on the
memory percentage is the identity in the rational model. -/
def create_process_row (index : ℕ) (p : ProcessSample)
    (uidToUser : List (ℕ × String))
    (priorityMap : List (ℕ × ProcessPriority))
    (memoryMap : List (ℕ × ProcessMemory))
    (totalMemory : ℚ) : ProcessRow :=
  let user := ((p.user_id.bind (fun uid => List.lookup uid uidToUser)).getD "?")
  let priorityInfo := get_process_priority p.pid priorityMap
  let memoryInfo := get_process_memory p.pid memoryMap
    (p.virtual_memory / 1024) (p.memory / 1024)
  let status := get_process_status p.status
  let memoryUsage : ℚ :=
    if 0 < totalMemory then ((p.memory : ℚ) / totalMemory) * 100 else 0
  { pidCell := toString p.pid
    userCell := user
    priCell := priorityInfo.priority
    niCell := priorityInfo.nice
    virtCell := format_bytes memoryInfo.virtual_memory
    resCell := format_bytes memoryInfo.resident_memory
    statusCell := status
    cpuCell := (fmt1 p.cpu_usage, get_usage_color p.cpu_usage)
    memCell := (fmt1 memoryUsage, get_usage_color memoryUsage)
    timeCell := format_runtime p.run_time
    commandCell := String.intercalate " " p.cmd
    background :=
      if index % 2 = 1 then Color.black else Color.rgb 30 30 30
    highlighted := decide (index = 0) }

/-! Input state machine (`src/main.rs` lines 129-144) -/

/-- The `crossterm` key codes relevant to `handle_key_event`; all keys
other than `Char('q')` and `F(1)` land in the wildcard arm. -/
inductive KeyCode where
  | char (c : Char)
  | f (n : ℕ)
  | enter
  | esc
  | backspace
  | tab
  | left
  | right
  | up
  | down
  | delete
  | insert
deriving DecidableEq, Repr

/-- Mirror of `AppState` (`src/ui.rs` 38-40). -/
structure AppState where
  show_help : Bool
deriving DecidableEq, Repr

/-- Embedding of `handle_key_event` (`src/main.rs` 129-144), written as the
first-match if-chain equivalent of the source's `match`: `Char('q')`
leaves the state unchanged (quit is handled by the loop), `F(1)` sets
`show_help`, and any other key clears `show_help` when it is set. -/
def handle_key_event (s : AppState) (k : KeyCode) : AppState :=
  if k = KeyCode.char 'q' then s
  else if k = KeyCode.f 1 then { show_help := true }
  else if s.show_help then { show_help := false } else s

/-! Spec-side definitions (stated from the specification's words,
for refinement comparisons against the code-side definitions above) -/

/-- Modelled from the spec (§4.1): the largest unit among KB/MB/GB/TB
for which the scaled value is at least 1, with KB for values below 1 KB. -/
def largest_unit_spec (n : ℕ) : String :=
  if TB ≤ n then "TB"
  else if GB ≤ n then "GB"
  else if MB ≤ n then "MB"
  else if KB ≤ n then "KB"
  else "KB"

/-- Modelled from the spec (§4.3): fill count
`round(used/total * bar_width)`, and 0 when the total is 0. -/
def fill_count_spec (used total barLength : ℕ) : ℕ :=
  if total = 0 then 0
  else (round (((used : ℚ) / (total : ℚ)) * (barLength : ℚ))).toNat

/-! Helper lemmas shared by the claim theorems -/

/-- Mapping the bar-character function over `range t` produces
`min u t` pipes followed by `t - min u t` spaces. -/
theorem range_map_bar (u : ℕ) :
    ∀ t : ℕ, (List.range t).map (fun i => if i < u then '|' else ' ') =
      List.replicate (min u t) '|' ++ List.replicate (t - min u t) ' ' := by
  intro t
  induction t with
  | zero => simp
  | succ t ih =>
    rw [List.range_succ, List.map_append, ih]
    rcases Nat.lt_or_ge t u with h | h
    · have h1 : min u t = t := min_eq_right h.le
      have h2 : min u (t + 1) = t + 1 := min_eq_right h
      rw [h1, h2, Nat.sub_self, Nat.sub_self]
      simp only [List.replicate_zero, List.append_nil, List.map_cons,
        List.map_nil, if_pos h]
      rw [List.replicate_succ' t '|']
    · have h1 : min u t = u := min_eq_left h
      have h2 : min u (t + 1) = u := min_eq_left (h.trans (Nat.le_succ t))
      have h3 : ¬ t < u := Nat.not_lt.mpr h
      have h4 : t + 1 - u = (t - u) + 1 := by omega
      rw [h1, h2, h4]
      simp only [List.map_cons, List.map_nil, if_neg h3]
      rw [List.replicate_succ' (t - u) ' ', List.append_assoc]

/-- Entry `(row, col)` of the CPU grid is core `row + col * cpu_rows n`
when that index is in range, and blank otherwise. -/
theorem cpu_grid_cell (n row col : ℕ) (hr : row < cpu_rows n)
    (hc : col < CPU_COLUMNS) :
    ((cpu_grid n).getD row []).getD col none =
      (if row + col * cpu_rows n < n then some (row + col * cpu_rows n)
       else none) := by
  unfold cpu_grid
  simp only [List.getD_eq_getElem?_getD, List.getElem?_map,
    List.getElem?_range hr, List.getElem?_range hc, Option.map_some,
    Option.map_some', Option.getD_some]

/-- Printing a digit (a residue modulo ten) takes exactly one character. -/
theorem toString_digit_length (m : ℕ) : (toString (m % 10)).length = 1 := by
  have h10 : m % 10 < 10 := Nat.mod_lt _ (by norm_num)
  generalize m % 10 = d at h10 ⊢
  interval_cases d <;> decide

/-! Claim theorems -/

/-- Claim C1, counterexample to the claim as stated: the help key F1 is
a non-quit key, yet pressing it while the help overlay is shown leaves
`show_help` set, so the state is not Dashboard afterwards. -/
theorem C1_counterexample :
    KeyCode.f 1 ≠ KeyCode.char 'q' ∧
    handle_key_event { show_help := true } (KeyCode.f 1) ≠
      { show_help := false } := by
  decide

/-- Claim C1 (amended): while in Help, every key other than the quit
key and the help key F1 dismisses the help overlay (yields Dashboard);
F1 itself keeps the help overlay shown. -/
theorem C1_help_dismissal :
    (∀ k : KeyCode, k ≠ KeyCode.char 'q' → k ≠ KeyCode.f 1 →
      handle_key_event { show_help := true } k = { show_help := false }) ∧
    handle_key_event { show_help := true } (KeyCode.f 1) =
      { show_help := true } := by
  constructor
  · intro k hq hf
    simp [handle_key_event, hq, hf]
  · decide

/-- Claim C1, witness: the Enter key dismisses the help overlay. -/
theorem C1_witness :
    (KeyCode.enter ≠ KeyCode.char 'q') ∧
    handle_key_event { show_help := true } KeyCode.enter =
      { show_help := false } :=
  ⟨by decide, C1_help_dismissal.1 KeyCode.enter (by decide) (by decide)⟩

/-- Claim C2: the bar-width computation of `draw_cpu_bars` is not total.
At width 8 (any width below the inter-column padding of 9) the unchecked
`usize` subtraction underflows: panic in debug profile, and in release
profile the wrapped value yields an astronomically large bar width.  For
widths of at least 9 the computation does produce a width of at least 4. -/
theorem C2_bar_width :
    bar_length_checked 8 = none ∧
    bar_length_release 8 = 4611686018427387891 ∧
    (∀ w : ℕ,
      (9 ≤ w ∧ ∃ b, bar_length_checked w = some b ∧ 4 ≤ b) ∨
      (w < 9 ∧ bar_length_checked w = none)) := by
  refine ⟨by decide,
    by norm_num [bar_length_release, CPU_COLUMNS, MIN_BAR_LENGTH], ?_⟩
  intro w
  rcases Nat.lt_or_ge w 9 with h | h
  · right
    exact ⟨h, by simp [bar_length_checked, CPU_COLUMNS, h]⟩
  · left
    refine ⟨h, ?_⟩
    refine ⟨(((w - 9) / 4) - 12).max 4, ?_, le_max_right _ _⟩
    simp [bar_length_checked, CPU_COLUMNS, MIN_BAR_LENGTH,
      Nat.not_lt.mpr h]

unseal List.merge List.mergeSort in
/-- Claim C3: the process table sorts descending by CPU percent — every
output sequence is pairwise non-increasing in CPU usage and is a
permutation of the snapshot, and CPU inputs 10, 90, 50 come out in the
order 90, 50, 10. -/
theorem C3_process_sort :
    (∀ ps : List ProcessSample,
      (sort_processes ps).Pairwise
        (fun a b => b.cpu_usage ≤ a.cpu_usage) ∧
      (sort_processes ps).Perm ps) ∧
    (sort_processes
        [⟨1, none, [], "Running", 10, 0, 0, 0⟩,
         ⟨2, none, [], "Running", 90, 0, 0, 0⟩,
         ⟨3, none, [], "Running", 50, 0, 0, 0⟩]).map
      ProcessSample.cpu_usage = [90, 50, 10] := by
  constructor
  · intro ps
    constructor
    · have h := @List.sorted_mergeSort ProcessSample
        (fun a b => decide (b.cpu_usage ≤ a.cpu_usage))
        (by
          intro a b c hab hbc
          simp only [decide_eq_true_eq] at *
          exact le_trans hbc hab)
        (by
          intro a b
          simp only [Bool.or_eq_true, decide_eq_true_eq]
          exact le_total b.cpu_usage a.cpu_usage)
        ps
      exact h.imp (fun hab => by simpa using hab)
    · exact List.mergeSort_perm ps _
  · decide

/-- Claim C4: the CPU-panel severity color uses strict comparisons with
thresholds 80 and 50; usage 81 is alert (red), 80 and 51 are warning
(yellow), 50 is nominal (green). -/
theorem C4_cpu_color :
    get_cpu_color 81 = Color.red ∧
    get_cpu_color 80 = Color.yellow ∧
    get_cpu_color 51 = Color.yellow ∧
    get_cpu_color 50 = Color.green ∧
    (∀ u : ℚ,
      (80 < u → get_cpu_color u = Color.red) ∧
      (50 < u → u ≤ 80 → get_cpu_color u = Color.yellow) ∧
      (u ≤ 50 → get_cpu_color u = Color.green)) := by
  refine ⟨by decide, by decide, by decide, by decide, ?_⟩
  intro u
  refine ⟨?_, ?_, ?_⟩
  · intro h
    simp [get_cpu_color, CPU_HIGH_THRESHOLD, h]
  · intro h1 h2
    simp [get_cpu_color, CPU_HIGH_THRESHOLD, CPU_MEDIUM_THRESHOLD, h1,
      not_lt.mpr h2]
  · intro h
    have h80 : ¬ CPU_HIGH_THRESHOLD < u := by
      simp only [CPU_HIGH_THRESHOLD]
      exact not_lt.mpr (h.trans (by norm_num))
    have h50 : ¬ CPU_MEDIUM_THRESHOLD < u := by
      simp only [CPU_MEDIUM_THRESHOLD]
      exact not_lt.mpr h
    simp [get_cpu_color, h80, h50]

/-- Claim C4, witness: the three tiers at sample points 90, 60 and 10. -/
theorem C4_witness :
    get_cpu_color 90 = Color.red ∧ get_cpu_color 60 = Color.yellow ∧
    get_cpu_color 10 = Color.green :=
  ⟨(C4_cpu_color.2.2.2.2 90).1 (by norm_num),
   (C4_cpu_color.2.2.2.2 60).2.1 (by norm_num) (by norm_num),
   (C4_cpu_color.2.2.2.2 10).2.2 (by norm_num)⟩

/-- Claim C5: both the CPU% and the MEM% cell of every process row are
colored by the shared `get_usage_color` two-tier rule (alert above 50,
warning above 20, nominal otherwise), which differs from the CPU-panel
rule, as 60 shows: the cell rule gives alert, the panel rule warning. -/
theorem C5_usage_color :
    (∀ index p uidToUser priorityMap memoryMap totalMemory,
      (create_process_row index p uidToUser priorityMap memoryMap
          totalMemory).cpuCell.2 = get_usage_color p.cpu_usage ∧
      (create_process_row index p uidToUser priorityMap memoryMap
          totalMemory).memCell.2 =
        get_usage_color
          (if 0 < totalMemory then ((p.memory : ℚ) / totalMemory) * 100
           else 0)) ∧
    (∀ v : ℚ, get_usage_color v =
      (if 50 < v then Color.red
       else if 20 < v then Color.yellow else Color.white)) ∧
    get_usage_color 60 = Color.red ∧ get_cpu_color 60 = Color.yellow := by
  refine ⟨?_, ?_, by decide, by decide⟩
  · intro index p uidToUser priorityMap memoryMap totalMemory
    exact ⟨rfl, rfl⟩
  · intro v
    simp [get_usage_color, PROCESS_HIGH_THRESHOLD,
      PROCESS_MEDIUM_THRESHOLD]

/-- Claim C6: `format_bytes` prints values below 1 KB as whole-number KB
with no decimal digits, prints every larger value with exactly one
decimal digit followed by the largest unit whose scaled value is at
least 1, and always ends in one of KB/MB/GB/TB (never a raw byte or
0-unit form). -/
theorem C6_format_bytes (n : ℕ) :
    (n < KB → format_bytes n = toString n ++ "KB") ∧
    (KB ≤ n → ∃ m : ℕ,
      format_bytes n =
        toString (m / 10) ++ "." ++ toString (m % 10) ++
          largest_unit_spec n ∧
      (toString (m % 10)).length = 1) ∧
    (∃ s : String, format_bytes n = s ++ largest_unit_spec n ∧
      (largest_unit_spec n = "KB" ∨ largest_unit_spec n = "MB" ∨
       largest_unit_spec n = "GB" ∨ largest_unit_spec n = "TB")) := by
  by_cases hTB : TB ≤ n
  · have hfb : format_bytes n = fmt1 ((n : ℚ) / (TB : ℚ)) ++ "TB" := by
      simp [format_bytes, hTB]
    have hus : largest_unit_spec n = "TB" := by
      simp [largest_unit_spec, hTB]
    have hKBle : KB ≤ n := by
      simp only [KB, MB, GB, TB] at hTB ⊢
      omega
    refine ⟨fun h => absurd h (not_lt.mpr hKBle), fun _ => ?_, ?_⟩
    · exact ⟨(rte (10 * ((n : ℚ) / (TB : ℚ)))).toNat,
        by rw [hfb, hus]; rfl, toString_digit_length _⟩
    · exact ⟨toString ((rte (10 * ((n : ℚ) / (TB : ℚ)))).toNat / 10) ++
          "." ++ toString ((rte (10 * ((n : ℚ) / (TB : ℚ)))).toNat % 10),
        by rw [hfb, hus]; rfl,
        Or.inr (Or.inr (Or.inr hus))⟩
  · by_cases hGB : GB ≤ n
    · have hfb : format_bytes n = fmt1 ((n : ℚ) / (GB : ℚ)) ++ "GB" := by
        simp [format_bytes, hTB, hGB]
      have hus : largest_unit_spec n = "GB" := by
        simp [largest_unit_spec, hTB, hGB]
      have hKBle : KB ≤ n := by
        simp only [KB, MB, GB, TB] at hGB ⊢
        omega
      refine ⟨fun h => absurd h (not_lt.mpr hKBle), fun _ => ?_, ?_⟩
      · exact ⟨(rte (10 * ((n : ℚ) / (GB : ℚ)))).toNat,
          by rw [hfb, hus]; rfl, toString_digit_length _⟩
      · exact ⟨toString ((rte (10 * ((n : ℚ) / (GB : ℚ)))).toNat / 10) ++
            "." ++ toString ((rte (10 * ((n : ℚ) / (GB : ℚ)))).toNat % 10),
          by rw [hfb, hus]; rfl,
          Or.inr (Or.inr (Or.inl hus))⟩
    · by_cases hMB : MB ≤ n
      · have hfb : format_bytes n = fmt1 ((n : ℚ) / (MB : ℚ)) ++ "MB" := by
          simp [format_bytes, hTB, hGB, hMB]
        have hus : largest_unit_spec n = "MB" := by
          simp [largest_unit_spec, hTB, hGB, hMB]
        have hKBle : KB ≤ n := by
          simp only [KB, MB] at hMB ⊢
          omega
        refine ⟨fun h => absurd h (not_lt.mpr hKBle), fun _ => ?_, ?_⟩
        · exact ⟨(rte (10 * ((n : ℚ) / (MB : ℚ)))).toNat,
            by rw [hfb, hus]; rfl, toString_digit_length _⟩
        · exact ⟨toString ((rte (10 * ((n : ℚ) / (MB : ℚ)))).toNat / 10) ++
              "." ++ toString ((rte (10 * ((n : ℚ) / (MB : ℚ)))).toNat % 10),
            by rw [hfb, hus]; rfl,
            Or.inr (Or.inl hus)⟩
      · by_cases hKB : KB ≤ n
        · have hfb : format_bytes n = fmt1 ((n : ℚ) / (KB : ℚ)) ++ "KB" := by
            simp [format_bytes, hTB, hGB, hMB, hKB]
          have hus : largest_unit_spec n = "KB" := by
            simp [largest_unit_spec, hTB, hGB, hMB, hKB]
          refine ⟨fun h => absurd h (not_lt.mpr hKB), fun _ => ?_, ?_⟩
          · exact ⟨(rte (10 * ((n : ℚ) / (KB : ℚ)))).toNat,
              by rw [hfb, hus]; rfl, toString_digit_length _⟩
          · exact ⟨toString ((rte (10 * ((n : ℚ) / (KB : ℚ)))).toNat / 10) ++
                "." ++ toString ((rte (10 * ((n : ℚ) / (KB : ℚ)))).toNat % 10),
              by rw [hfb, hus]; rfl,
              Or.inl hus⟩
        · have hfb : format_bytes n = toString n ++ "KB" := by
            simp [format_bytes, hTB, hGB, hMB, hKB]
          have hus : largest_unit_spec n = "KB" := by
            simp [largest_unit_spec, hTB, hGB, hMB, hKB]
          refine ⟨fun _ => hfb, fun h => absurd h hKB, ?_⟩
          exact ⟨toString n, by rw [hfb, hus], Or.inl hus⟩

/-- Claim C6, witness: 512 bytes print as whole-number KB, and 1536
bytes print with one decimal digit and the KB unit. -/
theorem C6_witness :
    format_bytes 512 = toString 512 ++ "KB" ∧
    (∃ m : ℕ, format_bytes 1536 =
      toString (m / 10) ++ "." ++ toString (m % 10) ++
        largest_unit_spec 1536 ∧
      (toString (m % 10)).length = 1) :=
  ⟨(C6_format_bytes 512).1 (by decide),
   (C6_format_bytes 1536).2.1 (by decide)⟩

/-- Claim C7: the memory-bar fill count agrees with the specification's
`round(used/total * bar_width)` with 0 for a zero total, a zero-total
bar is colored nominal (green), and the rendered bar is the progress
bar with that fill count under the text overlay. -/
theorem C7_memory_bar :
    (∀ used total barLength : ℕ,
      mem_used_bars used total barLength =
        fill_count_spec used total barLength) ∧
    (∀ label used barLength labelWidth,
      (create_memory_bar label used 0 barLength labelWidth).color =
        Color.green) ∧
    (∀ used, get_memory_color used 0 = Color.green) ∧
    (∀ label used total barLength labelWidth,
      (create_memory_bar label used total barLength labelWidth).bar =
        String.mk (overlay_label
          (create_progress_bar (mem_used_bars used total barLength)
            barLength).data
          (mem_label_start used total barLength)
          (mem_label_text used total).data)) := by
  refine ⟨?_, ?_, ?_, ?_⟩
  · intro u t l
    unfold mem_used_bars fill_count_spec
    rcases Nat.eq_zero_or_pos t with h | h
    · simp [h]
    · simp [h, h.ne']
  · intro label u l w
    simp [create_memory_bar, get_memory_color]
  · intro u
    simp [get_memory_color]
  · intro label u t l w
    rfl

/-- Claim C8: the CPU panel has `ceil(n/4)` rows and is filled
column-major — core `i` sits at row `i % rows` and column `i / rows`,
and that cell is the only one holding core `i`. -/
theorem C8_cpu_grid (n i : ℕ) (h : i < n) :
    (n ≤ CPU_COLUMNS * cpu_rows n ∧
      CPU_COLUMNS * cpu_rows n < n + CPU_COLUMNS) ∧
    i % cpu_rows n < cpu_rows n ∧ i / cpu_rows n < CPU_COLUMNS ∧
    ((cpu_grid n).getD (i % cpu_rows n) []).getD (i / cpu_rows n) none =
      some i ∧
    (∀ row col, row < cpu_rows n → col < CPU_COLUMNS →
      (((cpu_grid n).getD row []).getD col none = some i ↔
        (row = i % cpu_rows n ∧ col = i / cpu_rows n))) := by
  have hceil : n ≤ CPU_COLUMNS * cpu_rows n ∧
      CPU_COLUMNS * cpu_rows n < n + CPU_COLUMNS := by
    unfold cpu_rows CPU_COLUMNS
    omega
  have hrows : 0 < cpu_rows n := by
    unfold cpu_rows CPU_COLUMNS
    omega
  have hmod : i % cpu_rows n < cpu_rows n := Nat.mod_lt _ hrows
  have hdiv : i / cpu_rows n < CPU_COLUMNS := by
    rw [Nat.div_lt_iff_lt_mul hrows]
    exact lt_of_lt_of_le h hceil.1
  have hrecon : i % cpu_rows n + (i / cpu_rows n) * cpu_rows n = i :=
    Nat.mod_add_div' i (cpu_rows n)
  refine ⟨hceil, hmod, hdiv, ?_, ?_⟩
  · rw [cpu_grid_cell n _ _ hmod hdiv, hrecon, if_pos h]
  · intro row col hr hc
    rw [cpu_grid_cell n row col hr hc]
    constructor
    · intro hcell
      by_cases hin : row + col * cpu_rows n < n
      · rw [if_pos hin] at hcell
        have heq : row + col * cpu_rows n = i := by
          simpa using hcell
        constructor
        · rw [← heq, Nat.add_mul_mod_self_right, Nat.mod_eq_of_lt hr]
        · rw [← heq, Nat.add_mul_div_right _ _ hrows,
            Nat.div_eq_of_lt hr, Nat.zero_add]
      · rw [if_neg hin] at hcell
        exact absurd hcell (by simp)
    · rintro ⟨hrow, hcol⟩
      subst hrow hcol
      rw [hrecon, if_pos h]

/-- Claim C8, witness: with 6 cores (2 rows), core 5 sits at row 1,
column 2 of the grid. -/
theorem C8_witness :
    ((cpu_grid 6).getD (5 % cpu_rows 6) []).getD (5 / cpu_rows 6) none =
      some 5 :=
  (C8_cpu_grid 6 5 (by decide)).2.2.2.1

/-- Claim C9: when a pid is absent from the platform memory map, the
reconciled record equals the fallback values, and the process row
displays the primary sample's virtual and resident values converted to
KB. -/
theorem C9_memory_fallback :
    (∀ (pid : ℕ) (memoryMap : List (ℕ × ProcessMemory)) (fv fr : ℕ),
      List.lookup pid memoryMap = none →
      get_process_memory pid memoryMap fv fr = ⟨fv, fr⟩) ∧
    (∀ index p uidToUser priorityMap memoryMap totalMemory,
      List.lookup p.pid memoryMap = none →
      (create_process_row index p uidToUser priorityMap memoryMap
          totalMemory).virtCell = format_bytes (p.virtual_memory / 1024) ∧
      (create_process_row index p uidToUser priorityMap memoryMap
          totalMemory).resCell = format_bytes (p.memory / 1024)) := by
  constructor
  · intro pid mm fv fr hnone
    simp [get_process_memory, hnone]
  · intro index p u pm mm tm hnone
    constructor <;> simp [create_process_row, get_process_memory, hnone]

/-- Claim C9, witness: fallback on an empty map, both at the
reconciliation level and at the row level. -/
theorem C9_witness :
    get_process_memory 1 [] 7 3 = ⟨7, 3⟩ ∧
    (create_process_row 0 ⟨1, none, [], "Sleeping", 0, 3072, 2048, 0⟩
        [] [] [] 0).virtCell = format_bytes (2048 / 1024) :=
  ⟨C9_memory_fallback.1 1 [] 7 3 rfl,
   (C9_memory_fallback.2 0 ⟨1, none, [], "Sleeping", 0, 3072, 2048, 0⟩
      [] [] [] 0 rfl).1⟩

/-- Claim C10: `create_progress_bar` always returns a string of exactly
`total` characters, the first `min used total` of them pipes and the
rest spaces — the width is kept even when `used` exceeds `total`. -/
theorem C10_progress_bar (used total : ℕ) :
    (create_progress_bar used total).length = total ∧
    create_progress_bar used total =
      String.mk (List.replicate (min used total) '|' ++
        List.replicate (total - min used total) ' ') := by
  constructor
  · simp [create_progress_bar, String.length]
  · unfold create_progress_bar
    congr 1
    exact range_map_bar used total
